import Mathlib

/-!
Verification development for the check_zpools repository.

The Python sources under src/src/check_zpools are shallowly embedded:
pure functions become Lean functions, the mutable daemon/state-manager
objects become explicit state passing, wall-clock instants become integer
Unix timestamps (seconds, UTC), fallible code returns Except/Option, and
the delivery boundary (SMTP) is a Boolean oracle passed as a parameter.

Python floats are IEEE-754 binary64 values; they are embedded as the exact
rational values of the doubles, with decimal-literal-to-double conversion
modelled by an explicit round-to-nearest-even function over rationals
(overflow and subnormals are not modelled; every theorem stays inside the
normal range, where the model agrees with binary64 arithmetic).

The file states and settles the claims C1 to C10 about the spec.
-/

deriving instance DecidableEq for Except

namespace CZ

/-! ## Kernel-computable rational arithmetic

The Batteries definitions of Rat.add, Rat.sub, Rat.mul, Rat.inv are marked
irreducible, so terms built from them do not evaluate inside decide.  The
q-operations below are plain reducible definitions with the same values;
the bridge lemmas identify them with the standard field operations so the
general theorems can use Mathlib. -/

def qAdd (a b : ℚ) : ℚ := Rat.divInt (a.num * b.den + b.num * a.den) (a.den * b.den)

def qSub (a b : ℚ) : ℚ := Rat.divInt (a.num * b.den - b.num * a.den) (a.den * b.den)

def qMul (a b : ℚ) : ℚ := Rat.divInt (a.num * b.num) (a.den * b.den)

def qDiv (a b : ℚ) : ℚ := Rat.divInt (a.num * b.den) (a.den * b.num)

/-- Floor of a rational, computed from its numerator and denominator. -/
def ratFloor (q : ℚ) : Int := q.num / (q.den : Int)

/-- Truncation toward zero, the semantics of the Python int() conversion
applied to a finite float. -/
def ratTruncPy (q : ℚ) : Int := q.num.tdiv (q.den : Int)

/-! ## Binary64 rounding model

Python parses decimal literals into IEEE-754 binary64 doubles.  fl rounds
an exact rational to the nearest representable double (ties to even),
ignoring overflow and subnormal underflow, which no theorem below touches.
The exponent search uses a fuel-driven base-two logarithm so that the
whole function reduces inside the kernel. -/

def log2Aux : Nat → Nat → Nat
  | 0, _ => 0
  | fuel + 1, n => if 2 ≤ n then log2Aux fuel (n / 2) + 1 else 0

/-- Floor of the base-two logarithm of a positive natural number. -/
def natLog2 (n : Nat) : Nat := log2Aux n n

/-- Two to an integer power, as a rational. -/
def pow2q (e : Int) : ℚ :=
  if 0 ≤ e then (((2 ^ e.toNat : Nat) : Int) : ℚ) else Rat.divInt 1 ((2 ^ (-e).toNat : Nat) : Int)

/-- Round a rational to the nearest integer, ties to the even neighbour,
the rounding used by IEEE-754 binary64 arithmetic. -/
def roundNE (x : ℚ) : Int :=
  let n := ratFloor x
  let f := qSub x ((n : Int) : ℚ)
  if f < Rat.divInt 1 2 then n
  else if Rat.divInt 1 2 < f then n + 1
  else if n % 2 = 0 then n else n + 1

/-- Round a positive rational to the binary64 grid: scale by a power of
two so that the significand window holds 53 bits, round to nearest even,
scale back. -/
def flPos (q : ℚ) : ℚ :=
  let m := (ratFloor (qMul q (pow2q 1100))).toNat
  if m = 0 then 0
  else
    let e : Int := (natLog2 m : Int) - 1100 - 52
    qMul ((roundNE (qMul q (pow2q (-e))) : Int) : ℚ) (pow2q e)

/-- The binary64 value of an exact rational: the rounding a Python float
carries after parsing a decimal literal with that value. -/
def fl (q : ℚ) : ℚ :=
  if q = 0 then 0 else if 0 < q then flPos q else -flPos (-q)

/-! ## Data model

The module models.py is not part of the provided sources (only its callers
and its tests are), so the value types are modelled from the spec, section
3 DATA MODEL, and cross-checked against tests/test_models.py. -/

/-- Modelled from the spec: models.py is missing from the sources; Severity
is the closed, totally ordered variant OK < INFO < WARNING < CRITICAL. -/
inductive Severity
  | OK
  | INFO
  | WARNING
  | CRITICAL
deriving DecidableEq, Repr

/-- Modelled from the spec: the rank realising the total order on Severity. -/
def Severity.rank : Severity → Nat
  | .OK => 0
  | .INFO => 1
  | .WARNING => 2
  | .CRITICAL => 3

/-- Modelled from the spec: the binary maximum the Python builtin max
computes from the Severity order (the larger argument, the first on ties). -/
def Severity.max (a b : Severity) : Severity :=
  if a.rank < b.rank then b else a

/-- Modelled from the spec: models.py is missing from the sources;
PoolHealth is the closed variant of the six ZFS pool states. -/
inductive PoolHealth
  | ONLINE
  | DEGRADED
  | FAULTED
  | OFFLINE
  | UNAVAIL
  | REMOVED
deriving DecidableEq, Repr

/-- Modelled from the spec: is_healthy() holds exactly for ONLINE. -/
def PoolHealth.is_healthy : PoolHealth → Bool
  | .ONLINE => true
  | _ => false

/-- Modelled from the spec: is_critical() holds exactly for FAULTED,
UNAVAIL and REMOVED. -/
def PoolHealth.is_critical : PoolHealth → Bool
  | .FAULTED => true
  | .UNAVAIL => true
  | .REMOVED => true
  | _ => false

/-- Modelled from the spec: the string value of each PoolHealth member,
as consumed by the PoolHealth(value) constructor call in the parser. -/
def PoolHealth.ofString : String → Option PoolHealth
  | "ONLINE" => some .ONLINE
  | "DEGRADED" => some .DEGRADED
  | "FAULTED" => some .FAULTED
  | "OFFLINE" => some .OFFLINE
  | "UNAVAIL" => some .UNAVAIL
  | "REMOVED" => some .REMOVED
  | _ => none

/-- Modelled from the spec: models.py is missing from the sources;
PoolStatus is the immutable per-pool value.  Timestamps are Unix seconds
(UTC); capacity_percent is the exact rational value of the Python float. -/
structure PoolStatus where
  name : String
  health : PoolHealth
  capacity_percent : ℚ
  size_bytes : Int
  allocated_bytes : Int
  free_bytes : Int
  read_errors : Int
  write_errors : Int
  checksum_errors : Int
  last_scrub : Option Int
  scrub_errors : Int
  scrub_in_progress : Bool
deriving DecidableEq, Repr

/-- Modelled from the spec: models.py is missing from the sources;
PoolIssue is the immutable classified finding.  The details mapping is
modelled as a string-to-string association list (the scalar values are
rendered with toString; no claim depends on the rendering). -/
structure PoolIssue where
  pool_name : String
  severity : Severity
  category : String
  message : String
  details : List (String × String)
deriving DecidableEq, Repr

/-- Modelled from the spec: models.py is missing from the sources;
CheckResult bundles one cycle of classification.  The timestamp is the
Unix time the check ran. -/
structure CheckResult where
  timestamp : Int
  pools : List PoolStatus
  issues : List PoolIssue
  overall_severity : Severity
deriving DecidableEq, Repr

/-! ## Threshold engine (monitor.py) -/

/-- Configuration for pool monitoring thresholds, from monitor.py,
MonitorConfig. -/
structure MonitorConfig where
  capacity_warning_percent : Int := 80
  capacity_critical_percent : Int := 90
  scrub_max_age_days : Int := 30
  read_errors_warning : Int := 1
  write_errors_warning : Int := 1
  checksum_errors_warning : Int := 1
deriving DecidableEq, Repr

/-- Construction of MonitorConfig including the validation the dataclass
runs in post-init: an error value is the ValueError the source raises. -/
def mkMonitorConfig (w c a r wr ch : Int) : Except String MonitorConfig :=
  if w ≥ c then
    .error "capacity_warning_percent must be less than capacity_critical_percent"
  else if w < 0 ∨ c > 100 then
    .error "Capacity percentages must be between 0 and 100"
  else
    .ok ⟨w, c, a, r, wr, ch⟩

/-- The health rule of check_pool, from monitor.py. -/
def checkHealth (pool : PoolStatus) : Option PoolIssue :=
  if pool.health.is_healthy then none
  else
    let severity := if pool.health.is_critical then Severity.CRITICAL else Severity.WARNING
    some
      { pool_name := pool.name
        severity := severity
        category := "health"
        message := "Pool is not ONLINE (expected: ONLINE)"
        details := [("expected_state", "ONLINE")] }

/-- The capacity rule of check_pool, from monitor.py. -/
def checkCapacity (config : MonitorConfig) (pool : PoolStatus) : Option PoolIssue :=
  if pool.capacity_percent ≥ ((config.capacity_critical_percent : Int) : ℚ) then
    some
      { pool_name := pool.name
        severity := Severity.CRITICAL
        category := "capacity"
        message := "Pool capacity reached the critical threshold"
        details :=
          [("threshold", toString config.capacity_critical_percent),
           ("size_bytes", toString pool.size_bytes),
           ("allocated_bytes", toString pool.allocated_bytes),
           ("free_bytes", toString pool.free_bytes)] }
  else if pool.capacity_percent ≥ ((config.capacity_warning_percent : Int) : ℚ) then
    some
      { pool_name := pool.name
        severity := Severity.WARNING
        category := "capacity"
        message := "Pool capacity reached the warning threshold"
        details :=
          [("threshold", toString config.capacity_warning_percent),
           ("size_bytes", toString pool.size_bytes),
           ("allocated_bytes", toString pool.allocated_bytes),
           ("free_bytes", toString pool.free_bytes)] }
  else none

/-- The error rules of check_pool, from monitor.py: read, write and
checksum counters independently, each firing when strictly positive and
at least its threshold. -/
def checkErrors (config : MonitorConfig) (pool : PoolStatus) : List PoolIssue :=
  (if pool.read_errors > 0 ∧ pool.read_errors ≥ config.read_errors_warning then
    [{ pool_name := pool.name
       severity := Severity.WARNING
       category := "errors"
       message := "Pool has read errors"
       details :=
         [("read_errors", toString pool.read_errors),
          ("threshold", toString config.read_errors_warning)] }]
  else []) ++
  (if pool.write_errors > 0 ∧ pool.write_errors ≥ config.write_errors_warning then
    [{ pool_name := pool.name
       severity := Severity.WARNING
       category := "errors"
       message := "Pool has write errors"
       details :=
         [("write_errors", toString pool.write_errors),
          ("threshold", toString config.write_errors_warning)] }]
  else []) ++
  (if pool.checksum_errors > 0 ∧ pool.checksum_errors ≥ config.checksum_errors_warning then
    [{ pool_name := pool.name
       severity := Severity.WARNING
       category := "errors"
       message := "Pool has checksum errors (possible data corruption)"
       details :=
         [("checksum_errors", toString pool.checksum_errors),
          ("threshold", toString config.checksum_errors_warning)] }]
  else [])

/-- The scrub rule of check_pool, from monitor.py.  The now argument is
the wall clock instant datetime.now reads; age in days is the floor
division of the elapsed seconds that timedelta.days performs. -/
def checkScrub (config : MonitorConfig) (now : Int) (pool : PoolStatus) : Option PoolIssue :=
  if pool.scrub_errors > 0 then
    some
      { pool_name := pool.name
        severity := Severity.WARNING
        category := "scrub"
        message := "Last scrub found errors"
        details := [("scrub_errors", toString pool.scrub_errors)] }
  else if config.scrub_max_age_days > 0 then
    match pool.last_scrub with
    | none =>
      some
        { pool_name := pool.name
          severity := Severity.INFO
          category := "scrub"
          message := "Pool has never been scrubbed"
          details := [("last_scrub", "None")] }
    | some t =>
      let age_days := Int.fdiv (now - t) 86400
      if age_days > config.scrub_max_age_days then
        some
          { pool_name := pool.name
            severity := Severity.INFO
            category := "scrub"
            message := "Pool scrub is older than the configured maximum age"
            details :=
              [("age_days", toString age_days),
               ("max_age_days", toString config.scrub_max_age_days)] }
      else none
  else none

/-- check_pool from monitor.py: health, capacity, error and scrub rules
in that order. -/
def check_pool (config : MonitorConfig) (now : Int) (pool : PoolStatus) : List PoolIssue :=
  (checkHealth pool).toList ++ (checkCapacity config pool).toList ++
    checkErrors config pool ++ (checkScrub config now pool).toList

/-- check_all_pools from monitor.py: apply check_pool to every pool in
iteration order; the overall severity is OK for no issues, else the
maximum severity, computed like the Python max over the issue list. -/
def check_all_pools (config : MonitorConfig) (now : Int)
    (pools : List (String × PoolStatus)) : CheckResult :=
  let pool_list := pools.map Prod.snd
  let all_issues := pools.foldl (fun acc p => acc ++ check_pool config now p.2) []
  let overall :=
    match all_issues with
    | [] => Severity.OK
    | i :: rest => rest.foldl (fun m j => Severity.max m j.severity) i.severity
  { timestamp := now
    pools := pool_list
    issues := all_issues
    overall_severity := overall }

/-! ## JSON values and the list parser (zfs_parser.py)

JSON documents are modelled by the Json inductive below; numeric leaves in
the payloads at hand are integers.  The claims concern parse_pool_list and
the size parsing helpers, which are embedded in full; str() of container
values is abbreviated since no modelled payload reaches it. -/

inductive Json
  | null
  | bool (b : Bool)
  | int (n : Int)
  | str (s : String)
  | arr (elems : List Json)
  | obj (fields : List (String × Json))

/-- Python truthiness of a JSON value, deciding the early empty-pools
return in parse_pool_list. -/
def jsonFalsy : Json → Bool
  | .null => true
  | .bool b => !b
  | .int n => n == 0
  | .str s => s == ""
  | .arr l => l.isEmpty
  | .obj l => l.isEmpty

/-- Python str() of a JSON leaf, as used by _get_property_value. -/
def pyStr : Json → String
  | .str s => s
  | .int n => toString n
  | .bool true => "True"
  | .bool false => "False"
  | .null => "None"
  | .arr _ => "[...]"
  | .obj _ => "\x7b...\x7d"

/-- The _get_property_value helper: read the value field of the property
envelope, falling back to the default for missing keys or envelopes that
are not dictionaries. -/
def getPropertyValue (props : List (String × Json)) (key dflt : String) : String :=
  match props.lookup key with
  | some (Json.obj kvs) =>
    match kvs.lookup "value" with
    | some v => pyStr v
    | none => dflt
  | some _ => dflt
  | none => dflt

/-- Python str.strip of both ends of a character list. -/
def pyStrip (l : List Char) : List Char :=
  ((l.dropWhile Char.isWhitespace).reverse.dropWhile Char.isWhitespace).reverse

/-- Python str.rstrip with the percent character, as applied to the
capacity property string. -/
def rstripPctStr (s : String) : String :=
  String.mk ((s.toList.reverse.dropWhile (fun c => c == '%')).reverse)

/-- Digits accepted by the size-string pattern: the class of 0-9 plus the
decimal point. -/
def isDigitOrDot (c : Char) : Bool := c.isDigit || c == '.'

/-- Whether a character list is a decimal literal the Python float
constructor accepts (sign handled by the caller): only digits and at most
one decimal point, with at least one digit.  Exponent forms, infinities
and NaN spellings are outside the modelled payloads. -/
def isPyFloatBody (l : List Char) : Bool :=
  l.all isDigitOrDot && decide (l.countP (fun c => c == '.') ≤ 1) && l.any (fun c => c.isDigit)

/-- Value of a digit list read in base ten. -/
def digitsVal (l : List Char) : Nat :=
  l.foldl (fun a c => 10 * a + (c.toNat - 48)) 0

/-- Exact rational value of a decimal literal made of digits and at most
one decimal point. -/
def decimalVal (l : List Char) : ℚ :=
  let ip := l.takeWhile (fun c => !(c == '.'))
  let rest := l.dropWhile (fun c => !(c == '.'))
  match rest with
  | [] => ((digitsVal ip : Nat) : ℚ)
  | _ :: fp => qAdd ((digitsVal ip : Nat) : ℚ)
      (Rat.divInt ((digitsVal fp : Nat) : Int) ((10 ^ fp.length : Nat) : Int))

/-- Python float(s) on the modelled grammar: strip whitespace, take an
optional sign, and round the decimal value to binary64. -/
def pyFloatQ (s : String) : Option ℚ :=
  match pyStrip s.toList with
  | [] => none
  | c :: r =>
    if c == '+' then (if isPyFloatBody r then some (fl (decimalVal r)) else none)
    else if c == '-' then (if isPyFloatBody r then some (fl (-decimalVal r)) else none)
    else (if isPyFloatBody (c :: r) then some (fl (decimalVal (c :: r))) else none)

/-- Suffix class of the pre-compiled size pattern. -/
def sizeSuffix (c : Char) : Bool :=
  c == 'K' || c == 'M' || c == 'G' || c == 'T' || c == 'P'

/-- Match of the anchored pattern digits-or-dots, optional whitespace, one
suffix letter, applied to the stripped upper-cased size string; returns
the numeric part and the suffix. -/
def sizeMatch (l : List Char) : Option (List Char × Char) :=
  match l.reverse with
  | [] => none
  | c :: rest =>
    if sizeSuffix c then
      let v := (rest.dropWhile Char.isWhitespace).reverse
      if !v.isEmpty && v.all isDigitOrDot then some (v, c) else none
    else none

/-- The binary multiplier table of _parse_size_to_bytes. -/
def sizeMultiplier (c : Char) : ℚ :=
  if c == 'K' then 1024
  else if c == 'M' then 1048576
  else if c == 'G' then 1073741824
  else if c == 'T' then 1099511627776
  else if c == 'P' then 1125899906842624
  else 1

/-- The _parse_size_to_bytes helper: first int(float(s)), then the
suffix pattern with float(value) times the binary multiplier, truncated
to an integer; unparseable strings raise ValueError, modelled as error
results.  Multiplying a double by a power of two is exact away from
overflow, so the product is not re-rounded. -/
def parse_size_to_bytes (s : String) : Except String Int :=
  match pyFloatQ s with
  | some q => .ok (ratTruncPy q)
  | none =>
    match sizeMatch ((pyStrip s.toList).map Char.toUpper) with
    | some (vchars, suffix) =>
      if isPyFloatBody vchars then
        .ok (ratTruncPy (qMul (fl (decimalVal vchars)) (sizeMultiplier suffix)))
      else .error "Invalid numeric value in size string"
    | none => .error "Cannot parse size string - expected number or number+suffix (K/M/G/T/P)"

/-- The _parse_health_state helper: unknown strings fall back to OFFLINE
with a logged warning. -/
def parseHealthState (v : String) : PoolHealth :=
  (PoolHealth.ofString v).getD .OFFLINE

/-- Result record of _extract_capacity_metrics. -/
structure CapacityMetrics where
  capacity_percent : ℚ
  size_bytes : Int
  allocated_bytes : Int
  free_bytes : Int
deriving DecidableEq, Repr

/-- The _extract_capacity_metrics helper: capacity falls back to zero when
the string does not parse as a float; the three size fields propagate the
ValueError _parse_size_to_bytes raises. -/
def extractCapacityMetrics (props : List (String × Json)) : Except String CapacityMetrics := do
  let cstr := rstripPctStr (getPropertyValue props "capacity" "0")
  let cap := (pyFloatQ cstr).getD 0
  let size ← parse_size_to_bytes (getPropertyValue props "size" "0")
  let alloc ← parse_size_to_bytes (getPropertyValue props "allocated" "0")
  let free ← parse_size_to_bytes (getPropertyValue props "free" "0")
  pure ⟨cap, size, alloc, free⟩

/-- The _parse_pool_from_list helper: health and capacity from the
property envelope, error and scrub fields left at their defaults. -/
def parsePoolFromList (name : String) (pdata : Json) : Except String PoolStatus :=
  match pdata with
  | Json.obj fields =>
    match (fields.lookup "properties").getD (Json.obj []) with
    | Json.obj props => do
      let health := parseHealthState (getPropertyValue props "health" "UNKNOWN")
      let m ← extractCapacityMetrics props
      pure
        { name := name
          health := health
          capacity_percent := m.capacity_percent
          size_bytes := m.size_bytes
          allocated_bytes := m.allocated_bytes
          free_bytes := m.free_bytes
          read_errors := 0
          write_errors := 0
          checksum_errors := 0
          last_scrub := none
          scrub_errors := 0
          scrub_in_progress := false }
    | _ => .error "properties is not an object"
  | _ => .error "pool data is not an object"

/-- Dictionary assignment on an association list: replace the first
binding of the key in place, or append a fresh binding at the end; the
Python dict insertion-order semantics. -/
def setAssoc {α : Type} : List (String × α) → String → α → List (String × α)
  | [], k, v => [(k, v)]
  | (k1, v1) :: rest, k, v =>
    if k1 = k then (k, v) :: rest else (k1, v1) :: setAssoc rest k v

/-- parse_pool_list from zfs_parser.py: empty or missing pools short
circuit to an empty map, per-pool failures are skipped so siblings
survive, and a pools entry that is not a dictionary raises ZFSParseError,
modelled as the error result. -/
def parse_pool_list (json_data : List (String × Json)) :
    Except String (List (String × PoolStatus)) :=
  let poolsData := (json_data.lookup "pools").getD (Json.obj [])
  if jsonFalsy poolsData then .ok []
  else
    match poolsData with
    | Json.obj kvs =>
      .ok (kvs.foldl (fun acc np =>
        match parsePoolFromList np.1 np.2 with
        | .ok ps => setAssoc acc np.1 ps
        | .error _ => acc) [])
    | _ => .error "Failed to parse zpool list output"

/-! ## Alert-state store (alert_state.py)

The manager holds a dictionary keyed by pool:category strings; wall-clock
reads of datetime.now become an explicit now argument in Unix seconds.
Persistence happens through save_state after each mutation; the JSON
document is modelled structurally below, with the ISO-8601 codec for
aware UTC datetimes abstracted to the identity on Unix seconds (the
Python round trip fromisoformat after isoformat is the identity on aware
datetimes). -/

/-- State tracking for one pool issue, from alert_state.py, AlertState. -/
structure AlertState where
  pool_name : String
  issue_category : String
  first_seen : Int
  last_alerted : Option Int
  alert_count : Int
deriving DecidableEq, Repr

/-- The in-memory fields of AlertStateManager: the states dictionary and
the configured resend interval in hours. -/
structure StateMgr where
  states : List (String × AlertState)
  resend_interval_hours : Int
deriving DecidableEq, Repr

/-- The _make_key helper: pool and category joined by a colon. -/
def make_key (pool_name category : String) : String :=
  pool_name ++ ":" ++ category

/-- should_alert from alert_state.py: alert on missing state, on a state
row without a timestamp, or once the elapsed time reaches the resend
interval. -/
def should_alert (mgr : StateMgr) (now : Int) (issue : PoolIssue) : Bool :=
  match mgr.states.lookup (make_key issue.pool_name issue.category) with
  | none => true
  | some st =>
    match st.last_alerted with
    | none => true
    | some t => decide (now - t ≥ mgr.resend_interval_hours * 3600)

/-- record_alert from alert_state.py: update the existing row in place or
create a fresh one, then persist. -/
def record_alert (mgr : StateMgr) (now : Int) (issue : PoolIssue) : StateMgr :=
  let key := make_key issue.pool_name issue.category
  match mgr.states.lookup key with
  | some st =>
    let st2 : AlertState :=
      { st with last_alerted := some now, alert_count := st.alert_count + 1 }
    { mgr with states := setAssoc mgr.states key st2 }
  | none =>
    let st2 : AlertState :=
      { pool_name := issue.pool_name
        issue_category := issue.category
        first_seen := now
        last_alerted := some now
        alert_count := 1 }
    { mgr with states := setAssoc mgr.states key st2 }

/-- Dictionary deletion on an association list, for clear_issue. -/
def delAssoc {α : Type} : List (String × α) → String → List (String × α)
  | [], _ => []
  | (k1, v1) :: rest, k =>
    if k1 = k then rest else (k1, v1) :: delAssoc rest k

/-- clear_issue from alert_state.py: delete the row and persist,
reporting whether a row existed. -/
def clear_issue (mgr : StateMgr) (pool_name category : String) : StateMgr × Bool :=
  let key := make_key pool_name category
  match mgr.states.lookup key with
  | some _ => ({ mgr with states := delAssoc mgr.states key }, true)
  | none => (mgr, false)

/-- One serialized alerts entry of the persisted JSON document; the two
timestamps stand for their ISO-8601 renderings. -/
structure SerializedAlert where
  pool_name : String
  issue_category : String
  first_seen : Int
  last_alerted : Option Int
  alert_count : Int
deriving DecidableEq, Repr

/-- The persisted JSON document of save_state: a version tag and the
serialized alerts dictionary. -/
structure StateDoc where
  version : Int
  alerts : List (String × SerializedAlert)
deriving DecidableEq, Repr

/-- save_state from alert_state.py: serialize every state row under its
key with ISO timestamps, version 1. -/
def save_state (states : List (String × AlertState)) : StateDoc :=
  { version := 1
    alerts := states.map (fun kv =>
      (kv.1,
        { pool_name := kv.2.pool_name
          issue_category := kv.2.issue_category
          first_seen := kv.2.first_seen
          last_alerted := kv.2.last_alerted
          alert_count := kv.2.alert_count })) }

/-- load_state from alert_state.py, reading an intact document: reject
unknown versions with an empty state, otherwise rebuild the dictionary
entry by entry in file order (malformed entries would be skipped; the
structural document cannot contain one). -/
def load_state (doc : StateDoc) : List (String × AlertState) :=
  if doc.version ≠ 1 then []
  else
    doc.alerts.foldl (fun acc kv =>
      setAssoc acc kv.1
        { pool_name := kv.2.pool_name
          issue_category := kv.2.issue_category
          first_seen := kv.2.first_seen
          last_alerted := match kv.2.last_alerted with
            | some t => some t
            | none => none
          alert_count := kv.2.alert_count }) []

/-! ## Daemon orchestrator (daemon.py)

The check cycle is modelled from the merged pool map onward (data
acquisition and parsing happen upstream and abort the cycle on failure
before any state is touched).  E-mail delivery is a Boolean oracle; the
cycle returns the new daemon state plus the lists of alert and recovery
delivery attempts it made, each as a pool-category pair. -/

/-- The daemon configuration fields consumed by the modelled cycle. -/
structure DaemonConfig where
  pools_to_monitor : List String
  send_ok_emails : Bool
  send_recovery_emails : Bool
deriving DecidableEq, Repr

/-- The long-lived daemon state: the alert-state manager and the
previous-cycle issue map from pool names to category sets. -/
structure DaemonState where
  mgr : StateMgr
  previous_issues : List (String × List String)
deriving DecidableEq, Repr

/-- Record one issue into a cycle issue map: create the per-pool category
set on first sight, then add the category if absent, mirroring the
tracking loops of _handle_check_result and _detect_recoveries. -/
def addIssueCat (m : List (String × List String)) (pool category : String) :
    List (String × List String) :=
  match m.lookup pool with
  | none => m ++ [(pool, [category])]
  | some cats => if category ∈ cats then m else setAssoc m pool (cats ++ [category])

/-- The issue map a cycle builds from its issue list. -/
def buildIssueMap (issues : List PoolIssue) : List (String × List String) :=
  issues.foldl (fun m i => addIssueCat m i.pool_name i.category) []

/-- The per-issue alerting step of _handle_check_result: skip OK issues
unless configured, consult should_alert, skip issues whose pool vanished
from the map, attempt delivery, and record successful deliveries. -/
def handleIssue (cfg : DaemonConfig) (alertOk : PoolIssue → Bool) (now : Int)
    (pools : List (String × PoolStatus)) (st : StateMgr × List (String × String))
    (issue : PoolIssue) : StateMgr × List (String × String) :=
  let (mgr, attempts) := st
  if issue.severity = Severity.OK ∧ ¬cfg.send_ok_emails then (mgr, attempts)
  else if ¬should_alert mgr now issue then (mgr, attempts)
  else
    match pools.lookup issue.pool_name with
    | none => (mgr, attempts)
    | some _ =>
      let success := alertOk issue
      if success then
        (record_alert mgr now issue, attempts ++ [(issue.pool_name, issue.category)])
      else (mgr, attempts ++ [(issue.pool_name, issue.category)])

/-- _handle_check_result from daemon.py: track every issue into the
current issue map, run the alerting steps, and finally replace the
previous-cycle issue map with the current one. -/
def handle_check_result (cfg : DaemonConfig) (alertOk : PoolIssue → Bool) (now : Int)
    (st : DaemonState) (issues : List PoolIssue) (pools : List (String × PoolStatus)) :
    DaemonState × List (String × String) :=
  let r := issues.foldl (handleIssue cfg alertOk now pools) (st.mgr, [])
  ({ mgr := r.1, previous_issues := buildIssueMap issues }, r.2)

/-- _detect_recoveries from daemon.py: nothing when recovery mail is
disabled; otherwise rebuild the current issue map, diff every pool of the
previous map against it, attempt a recovery delivery per resolved
category, and clear the state row on delivery success. -/
def detect_recoveries (cfg : DaemonConfig) (recoveryOk : String → String → Bool)
    (st : DaemonState) (issues : List PoolIssue) : DaemonState × List (String × String) :=
  if ¬cfg.send_recovery_emails then (st, [])
  else
    let current := buildIssueMap issues
    let step := fun (acc : StateMgr × List (String × String)) (pc : String × List String) =>
      let resolved := pc.2.filter (fun c =>
        ¬ c ∈ ((current.lookup pc.1).getD []))
      resolved.foldl (fun (acc2 : StateMgr × List (String × String)) c =>
        if recoveryOk pc.1 c then
          ((clear_issue acc2.1 pc.1 c).1, acc2.2 ++ [(pc.1, c)])
        else (acc2.1, acc2.2 ++ [(pc.1, c)])) acc
    let r := st.previous_issues.foldl step (st.mgr, [])
    ({ st with mgr := r.1 }, r.2)

/-- The whitelist filter of _run_check_cycle: restrict the merged map to
the configured pools when the whitelist is non-empty. -/
def filterMonitored (cfg : DaemonConfig) (merged : List (String × PoolStatus)) :
    List (String × PoolStatus) :=
  if ¬cfg.pools_to_monitor.isEmpty then
    merged.filter (fun p => p.1 ∈ cfg.pools_to_monitor)
  else merged

/-- The tail of _run_check_cycle from daemon.py, starting at the point
where the merged pool map exists: apply the whitelist filter, return
untouched on an empty map, then classify, handle the result (which
replaces the previous-cycle issue map) and detect recoveries.  Returns
the new daemon state, the alert delivery attempts and the recovery
delivery attempts. -/
def run_check_cycle (cfg : DaemonConfig) (mon : MonitorConfig)
    (alertOk : PoolIssue → Bool) (recoveryOk : String → String → Bool) (now : Int)
    (st : DaemonState) (merged : List (String × PoolStatus)) :
    DaemonState × List (String × String) × List (String × String) :=
  let pools := filterMonitored cfg merged
  if pools.isEmpty then (st, [], [])
  else
    let result := check_all_pools mon now pools
    let h := handle_check_result cfg alertOk now st result.issues pools
    let d := detect_recoveries cfg recoveryOk h.1 result.issues
    (d.1, h.2, d.2)

/-! ## Concrete inputs used by witnesses and counterexamples -/

/-- A pool standing at 85 percent capacity, otherwise healthy. -/
def wPool85 : PoolStatus :=
  { name := "rpool"
    health := .ONLINE
    capacity_percent := 85
    size_bytes := 1000
    allocated_bytes := 850
    free_bytes := 150
    read_errors := 0
    write_errors := 0
    checksum_errors := 0
    last_scrub := some 0
    scrub_errors := 0
    scrub_in_progress := false }

/-- The default monitor thresholds. -/
def wMonitor : MonitorConfig := {}

/-- A capacity warning issue for the witness scenarios. -/
def wIssue : PoolIssue :=
  { pool_name := "rpool"
    severity := .WARNING
    category := "capacity"
    message := "Pool capacity reached the warning threshold"
    details := [] }

/-- A fresh state manager with the default 24 hour resend interval. -/
def wMgr : StateMgr := { states := [], resend_interval_hours := 24 }

/-- A manager already holding a row for rpool capacity plus an unrelated
row, for the frame witness. -/
def wMgr9 : StateMgr :=
  { states :=
      [("rpool:capacity",
        { pool_name := "rpool", issue_category := "capacity", first_seen := 100,
          last_alerted := some 100, alert_count := 1 }),
       ("tank:errors",
        { pool_name := "tank", issue_category := "errors", first_seen := 50,
          last_alerted := some 60, alert_count := 2 })]
    resend_interval_hours := 24 }

/-- Two alert-state rows with distinct keys, for the round-trip witness. -/
def wStates : List (String × AlertState) :=
  [("rpool:capacity",
    { pool_name := "rpool", issue_category := "capacity", first_seen := 100,
      last_alerted := some 200, alert_count := 3 }),
   ("tank:scrub",
    { pool_name := "tank", issue_category := "scrub", first_seen := 400,
      last_alerted := none, alert_count := 0 })]

/-- A daemon configuration whose whitelist names only the tank pool. -/
def wDaemonCfg : DaemonConfig :=
  { pools_to_monitor := ["tank"], send_ok_emails := false, send_recovery_emails := true }

/-- A daemon state carrying a non-trivial manager and previous issue map,
to witness that the empty-map cycle leaves everything unchanged. -/
def wDaemonState : DaemonState :=
  { mgr := wMgr9, previous_issues := [("rpool", ["capacity"])] }

/-- Pool-list payload whose single pool carries an unparseable size
string: the spec claim expects the pool to be kept with size zero, the
source drops it. -/
def c3CexPayload : List (String × Json) :=
  [("pools", Json.obj
    [("tank", Json.obj
      [("properties", Json.obj
        [("health", Json.obj [("value", Json.str "ONLINE")]),
         ("capacity", Json.obj [("value", Json.str "50")]),
         ("size", Json.obj [("value", Json.str "garbage")]),
         ("allocated", Json.obj [("value", Json.str "0")]),
         ("free", Json.obj [("value", Json.str "0")])])])])]

/-- Properties of a pool whose capacity string is unparseable while the
size fields are fine. -/
def wGoodProps : List (String × Json) :=
  [("health", Json.obj [("value", Json.str "ONLINE")]),
   ("capacity", Json.obj [("value", Json.str "oops")]),
   ("size", Json.obj [("value", Json.str "100")]),
   ("allocated", Json.obj [("value", Json.str "40")]),
   ("free", Json.obj [("value", Json.str "60")])]

/-- Properties of a pool whose size string is unparseable. -/
def wBadProps : List (String × Json) :=
  [("health", Json.obj [("value", Json.str "ONLINE")]),
   ("capacity", Json.obj [("value", Json.str "50")]),
   ("size", Json.obj [("value", Json.str "junk")]),
   ("allocated", Json.obj [("value", Json.str "0")]),
   ("free", Json.obj [("value", Json.str "0")])]

/-- The pools dictionary mixing the two pools above. -/
def wMixedPools : List (String × Json) :=
  [("bad", Json.obj [("properties", Json.obj wBadProps)]),
   ("good", Json.obj [("properties", Json.obj wGoodProps)])]

/-! ## Character classes and the parsed good pool, used by the theorems -/

/-- The ten decimal digit characters. -/
def digitChars : List Char := ['0', '1', '2', '3', '4', '5', '6', '7', '8', '9']

/-- The five binary suffix characters. -/
def suffixChars : List Char := ['K', 'M', 'G', 'T', 'P']

/-- The exponent k with multiplier 1024 to the k for each suffix. -/
def suffixExp (c : Char) : Nat :=
  if c == 'K' then 1
  else if c == 'M' then 2
  else if c == 'G' then 3
  else if c == 'T' then 4
  else if c == 'P' then 5
  else 0

/-- The PoolStatus the list parser produces for the good pool above:
capacity fell back to zero, the size fields parsed. -/
def wGoodParsed : PoolStatus :=
  { name := "good"
    health := .ONLINE
    capacity_percent := 0
    size_bytes := 100
    allocated_bytes := 40
    free_bytes := 60
    read_errors := 0
    write_errors := 0
    checksum_errors := 0
    last_scrub := none
    scrub_errors := 0
    scrub_in_progress := false }

theorem qAdd_eq (a b : ℚ) : qAdd a b = a + b := by
  have ha : (a.den : ℚ) ≠ 0 := by positivity
  have hb : (b.den : ℚ) ≠ 0 := by positivity
  rw [qAdd, Rat.divInt_eq_div]
  conv_rhs => rw [← Rat.num_div_den a, ← Rat.num_div_den b]
  push_cast
  field_simp

theorem qSub_eq (a b : ℚ) : qSub a b = a - b := by
  have ha : (a.den : ℚ) ≠ 0 := by positivity
  have hb : (b.den : ℚ) ≠ 0 := by positivity
  rw [qSub, Rat.divInt_eq_div]
  conv_rhs => rw [← Rat.num_div_den a, ← Rat.num_div_den b]
  push_cast
  field_simp
  ring

theorem qMul_eq (a b : ℚ) : qMul a b = a * b := by
  have ha : (a.den : ℚ) ≠ 0 := by positivity
  have hb : (b.den : ℚ) ≠ 0 := by positivity
  rw [qMul, Rat.divInt_eq_div]
  conv_rhs => rw [← Rat.num_div_den a, ← Rat.num_div_den b]
  push_cast
  field_simp

theorem qDiv_eq (a b : ℚ) : qDiv a b = a / b := by
  rcases eq_or_ne b 0 with rfl | hbz
  · simp [qDiv]
  · have ha : (a.den : ℚ) ≠ 0 := by positivity
    have hd : (b.den : ℚ) ≠ 0 := by positivity
    have hn : (b.num : ℚ) ≠ 0 := by
      simpa using Rat.num_ne_zero.mpr hbz
    rw [qDiv, Rat.divInt_eq_div]
    conv_rhs => rw [← Rat.num_div_den a, ← Rat.num_div_den b]
    push_cast
    rw [div_div_div_eq]

theorem ratFloor_eq (q : ℚ) : ratFloor q = ⌊q⌋ := by
  rw [Rat.floor_def, ratFloor]

theorem log2Aux_spec : ∀ fuel n, n ≤ fuel → 1 ≤ n →
    2 ^ log2Aux fuel n ≤ n ∧ n < 2 ^ (log2Aux fuel n + 1) := by
  intro fuel
  induction fuel with
  | zero => intro n hn h1; omega
  | succ fuel ih =>
    intro n hn h1
    by_cases h2 : 2 ≤ n
    · have hrec := ih (n / 2) (by omega) (by omega)
      rw [log2Aux]
      simp only [if_pos h2]
      rw [pow_succ, pow_succ] at *
      omega
    · rw [log2Aux]
      simp only [if_neg h2]
      omega

theorem natLog2_spec (n : Nat) (h1 : 1 ≤ n) :
    2 ^ natLog2 n ≤ n ∧ n < 2 ^ (natLog2 n + 1) :=
  log2Aux_spec n n le_rfl h1

theorem natLog2_unique (n k : Nat) (h1 : 2 ^ k ≤ n) (h2 : n < 2 ^ (k + 1)) :
    natLog2 n = k := by
  have hpos : 1 ≤ n := le_trans (Nat.one_le_two_pow) h1
  obtain ⟨hl, hr⟩ := natLog2_spec n hpos
  by_contra hne
  rcases Nat.lt_or_ge (natLog2 n) k with hlt | hge
  · have : (2 : Nat) ^ (natLog2 n + 1) ≤ 2 ^ k := Nat.pow_le_pow_right (by norm_num) (by omega)
    omega
  · have hk : k + 1 ≤ natLog2 n := by omega
    have : (2 : Nat) ^ (k + 1) ≤ 2 ^ natLog2 n := Nat.pow_le_pow_right (by norm_num) hk
    omega

theorem pow2q_eq (e : Int) : pow2q e = (2 : ℚ) ^ e := by
  rcases le_or_lt 0 e with he | he
  · rw [pow2q, if_pos he]
    push_cast
    rw [← zpow_natCast, Int.toNat_of_nonneg he]
  · rw [pow2q, if_neg (by omega), Rat.divInt_eq_div]
    push_cast
    rw [← zpow_natCast (2 : ℚ) (-e).toNat]
    have hne : (((-e).toNat : ℕ) : Int) = -e := by omega
    rw [hne, zpow_neg, one_div, inv_inv]

theorem roundNE_intCast (z : Int) : roundNE ((z : Int) : ℚ) = z := by
  have hf : ratFloor ((z : Int) : ℚ) = z := by rw [ratFloor_eq, Int.floor_intCast]
  have hsub : qSub ((z : Int) : ℚ) ((z : Int) : ℚ) = 0 := by rw [qSub_eq, sub_self]
  have hhalf : (0 : ℚ) < Rat.divInt 1 2 := by rw [Rat.divInt_eq_div]; norm_num
  rw [roundNE]
  simp only [hf, hsub]
  rw [if_pos hhalf]

theorem fl_zero : fl 0 = 0 := by rw [fl, if_pos rfl]

theorem fl_natCast (n : Nat) (h1 : 1 ≤ n) (h2 : n < 2 ^ 53) : fl ((n : Nat) : ℚ) = n := by
  have hq0 : ((n : Nat) : ℚ) ≠ 0 := by positivity
  have hqpos : (0 : ℚ) < ((n : Nat) : ℚ) := by positivity
  rw [fl, if_neg hq0, if_pos hqpos, flPos]
  have hbig : qMul ((n : Nat) : ℚ) (pow2q 1100) = (((n * 2 ^ 1100 : Nat) : Nat) : ℚ) := by
    rw [qMul_eq, pow2q_eq]
    push_cast
    rw [← zpow_natCast (2 : ℚ) 1100]
    norm_num
  have hmfl : ratFloor (qMul ((n : Nat) : ℚ) (pow2q 1100)) = ((n * 2 ^ 1100 : Nat) : Int) := by
    rw [hbig, ratFloor_eq, Int.floor_natCast]
  have hmt : (ratFloor (qMul ((n : Nat) : ℚ) (pow2q 1100))).toNat = n * 2 ^ 1100 := by
    rw [hmfl, Int.toNat_natCast]
  have hNpos : n * 2 ^ 1100 ≠ 0 := by positivity
  simp only [hmt]
  rw [if_neg hNpos]
  have hL52 : natLog2 n ≤ 52 := by
    obtain ⟨hl, _⟩ := natLog2_spec n h1
    by_contra hgt
    have : (2 : Nat) ^ 53 ≤ 2 ^ natLog2 n := Nat.pow_le_pow_right (by norm_num) (by omega)
    omega
  have hLN : natLog2 (n * 2 ^ 1100) = natLog2 n + 1100 := by
    obtain ⟨hl, hr⟩ := natLog2_spec n h1
    apply natLog2_unique
    · rw [pow_add]
      exact Nat.mul_le_mul_right _ hl
    · have : natLog2 n + 1100 + 1 = (natLog2 n + 1) + 1100 := by omega
      rw [this, pow_add]
      exact mul_lt_mul_of_pos_right hr (by positivity)
  rw [hLN]
  set L := natLog2 n with hLdef
  have he : ((L + 1100 : Nat) : Int) - 1100 - 52 = (L : Int) - 52 := by push_cast; ring
  rw [he]
  have hneg : -((L : Int) - 52) = ((52 - L : Nat) : Int) := by omega
  have hscale : qMul ((n : Nat) : ℚ) (pow2q (-((L : Int) - 52))) =
      (((n * 2 ^ (52 - L) : Nat) : Int) : ℚ) := by
    rw [qMul_eq, pow2q_eq, hneg, zpow_natCast]
    push_cast
    ring
  rw [hscale, roundNE_intCast, qMul_eq, pow2q_eq]
  push_cast
  have hz : ((52 - L : Nat) : Int) + ((L : Int) - 52) = 0 := by omega
  rw [mul_assoc, ← zpow_natCast (2 : ℚ) (52 - L),
    ← zpow_add₀ (two_ne_zero : (2 : ℚ) ≠ 0), hz, zpow_zero, mul_one]

/-! ## Association-list lemmas shared by the proofs -/

theorem lookup_setAssoc_self {α : Type} (l : List (String × α)) (k : String) (v : α) :
    (setAssoc l k v).lookup k = some v := by
  induction l with
  | nil => simp [setAssoc, List.lookup]
  | cons hd tl ih =>
    by_cases h : hd.1 = k
    · simp [setAssoc, h, List.lookup]
    · rw [show (hd :: tl : List (String × α)) = (hd.1, hd.2) :: tl from rfl]
      rw [setAssoc]
      rw [if_neg h]
      simp only [List.lookup]
      rw [show (k == hd.1) = false from beq_eq_false_iff_ne.mpr (Ne.symm h)]
      exact ih

theorem lookup_setAssoc_ne {α : Type} (l : List (String × α)) (k k2 : String) (v : α)
    (h : k2 ≠ k) : (setAssoc l k v).lookup k2 = l.lookup k2 := by
  induction l with
  | nil => simp [setAssoc, List.lookup, beq_eq_false_iff_ne.mpr h]
  | cons hd tl ih =>
    by_cases hh : hd.1 = k
    · rw [show (hd :: tl : List (String × α)) = (hd.1, hd.2) :: tl from rfl]
      rw [setAssoc, if_pos hh]
      simp only [List.lookup]
      rw [beq_eq_false_iff_ne.mpr h, hh, beq_eq_false_iff_ne.mpr h]
    · rw [show (hd :: tl : List (String × α)) = (hd.1, hd.2) :: tl from rfl]
      rw [setAssoc, if_neg hh]
      simp only [List.lookup]
      cases hk : (k2 == hd.1)
      · exact ih
      · rfl

theorem lookup_none_iff {α : Type} (l : List (String × α)) (k : String) :
    l.lookup k = none ↔ k ∉ l.map Prod.fst := by
  induction l with
  | nil => simp [List.lookup]
  | cons hd tl ih =>
    simp only [List.lookup, List.map_cons, List.mem_cons]
    cases hk : (k == hd.1)
    · have : k ≠ hd.1 := by simpa using hk
      simp [this, ih]
    · have : k = hd.1 := by simpa using hk
      simp [this]

theorem lookup_eq_of_mem_nodup {α : Type} (l : List (String × α)) (k : String) (v : α)
    (hnd : (l.map Prod.fst).Nodup) (hmem : (k, v) ∈ l) : l.lookup k = some v := by
  induction l with
  | nil => cases hmem
  | cons hd tl ih =>
    simp only [List.map_cons, List.nodup_cons] at hnd
    rcases List.mem_cons.mp hmem with heq | htl
    · simp only [List.lookup, ← heq]
      rw [show (k == k) = true from beq_self_eq_true k]
    · have hk : k ≠ hd.1 := by
        intro hkk
        exact hnd.1 (hkk ▸ (List.mem_map.mpr ⟨(k, v), htl, rfl⟩))
      simp only [List.lookup]
      rw [beq_eq_false_iff_ne.mpr hk]
      exact ih hnd.2 htl

theorem setAssoc_of_lookup_none {α : Type} (l : List (String × α)) (k : String) (v : α)
    (h : l.lookup k = none) : setAssoc l k v = l ++ [(k, v)] := by
  induction l with
  | nil => simp [setAssoc]
  | cons hd tl ih =>
    simp only [List.lookup] at h
    cases hk : (k == hd.1) with
    | true => rw [hk] at h; cases h
    | false =>
      rw [hk] at h
      have hne : hd.1 ≠ k := by simpa using (beq_eq_false_iff_ne.mp hk).symm
      rw [show (hd :: tl : List (String × α)) = (hd.1, hd.2) :: tl from rfl, setAssoc, if_neg hne]
      simp [ih h]

theorem setAssoc_keys_of_mem {α : Type} (l : List (String × α)) (k : String) (v : α)
    (h : k ∈ l.map Prod.fst) : (setAssoc l k v).map Prod.fst = l.map Prod.fst := by
  induction l with
  | nil => cases h
  | cons hd tl ih =>
    by_cases hh : hd.1 = k
    · rw [show (hd :: tl : List (String × α)) = (hd.1, hd.2) :: tl from rfl, setAssoc, if_pos hh]
      simp [hh]
    · rw [show (hd :: tl : List (String × α)) = (hd.1, hd.2) :: tl from rfl, setAssoc, if_neg hh]
      simp only [List.map_cons, List.mem_cons] at h ⊢
      rcases h with h | h
      · exact absurd h.symm hh
      · rw [ih h]

/-! ## Claim C2: MonitorConfig validation -/

/-- C2 counterexample: constructing MonitorConfig with a negative
scrub_max_age_days and a negative checksum threshold succeeds, against
the claim that any violated field rule raises a validation error. -/
theorem mkMonitorConfig_accepts_negatives :
    mkMonitorConfig 80 90 (-5) 1 1 (-3) = .ok ⟨80, 90, -5, 1, 1, -3⟩ := by decide

/-- C2 amended: construction raises a validation error exactly when the
capacity thresholds are out of order or out of range; the scrub age and
error thresholds are not validated, so negative values are accepted. -/
theorem mkMonitorConfig_ok_iff (w c a r wr ch : Int) :
    (∃ cfg, mkMonitorConfig w c a r wr ch = .ok cfg) ↔
      0 ≤ w ∧ w ≤ 100 ∧ 0 ≤ c ∧ c ≤ 100 ∧ w < c := by
  rw [mkMonitorConfig]
  by_cases h1 : w ≥ c
  · rw [if_pos h1]
    constructor
    · rintro ⟨cfg, hcfg⟩; cases hcfg
    · intro h; omega
  · rw [if_neg h1]
    by_cases h2 : w < 0 ∨ c > 100
    · rw [if_pos h2]
      constructor
      · rintro ⟨cfg, hcfg⟩; cases hcfg
      · intro h; omega
    · rw [if_neg h2]
      push_neg at h1 h2
      constructor
      · intro _; omega
      · intro _; exact ⟨_, rfl⟩

/-! ## Claim C10: empty filtered map leaves the cycle without effect -/

/-- C10: when the whitelist filter empties the merged pool map the cycle
returns immediately: the daemon state (alert-state manager and
previous-cycle issue map) is returned unchanged and no alert or recovery
delivery is attempted. -/
theorem run_check_cycle_empty_noop (cfg : DaemonConfig) (mon : MonitorConfig)
    (alertOk : PoolIssue → Bool) (recoveryOk : String → String → Bool) (now : Int)
    (st : DaemonState) (merged : List (String × PoolStatus))
    (h : filterMonitored cfg merged = []) :
    run_check_cycle cfg mon alertOk recoveryOk now st merged = (st, [], []) := by
  rw [run_check_cycle]
  simp [h]

/-- C10 witness: a merged map holding only rpool under a whitelist naming
only tank filters to nothing, and the cycle is a no-op on a non-trivial
daemon state. -/
theorem run_check_cycle_empty_noop_witness :
    filterMonitored wDaemonCfg [("rpool", wPool85)] = [] ∧
    run_check_cycle wDaemonCfg wMonitor (fun _ => true) (fun _ _ => true) 7200
      wDaemonState [("rpool", wPool85)] = (wDaemonState, [], []) :=
  ⟨by decide,
   run_check_cycle_empty_noop wDaemonCfg wMonitor (fun _ => true) (fun _ _ => true) 7200
     wDaemonState [("rpool", wPool85)] (by decide)⟩

/-! ## Claim C9: record_alert frame property -/

/-- C9: recording an alert for an issue whose key already has a state row
rewrites exactly that row, setting last_alerted to the current instant
and incrementing alert_count by one while keeping pool_name,
issue_category and first_seen, and leaves the row of every other key
unchanged. -/
theorem record_alert_frame (mgr : StateMgr) (now : Int) (issue : PoolIssue)
    (st : AlertState)
    (h : mgr.states.lookup (make_key issue.pool_name issue.category) = some st) :
    (record_alert mgr now issue).states.lookup (make_key issue.pool_name issue.category) =
      some { pool_name := st.pool_name
             issue_category := st.issue_category
             first_seen := st.first_seen
             last_alerted := some now
             alert_count := st.alert_count + 1 } ∧
    (∀ k, k ≠ make_key issue.pool_name issue.category →
      (record_alert mgr now issue).states.lookup k = mgr.states.lookup k) ∧
    (record_alert mgr now issue).resend_interval_hours = mgr.resend_interval_hours := by
  have hrec : record_alert mgr now issue =
      { mgr with
          states := setAssoc mgr.states (make_key issue.pool_name issue.category)
            (AlertState.mk st.pool_name st.issue_category st.first_seen (some now)
              (st.alert_count + 1)) } := by
    rw [record_alert]
    simp only [h]
  rw [hrec]
  exact ⟨lookup_setAssoc_self _ _ _, fun k hk => lookup_setAssoc_ne _ _ _ _ hk, rfl⟩

/-- C9 witness: recording a second rpool capacity alert at time 7200 in a
manager also holding a tank errors row updates only the rpool row. -/
theorem record_alert_frame_witness :
    wMgr9.states.lookup "rpool:capacity" =
      some { pool_name := "rpool", issue_category := "capacity", first_seen := 100,
             last_alerted := some 100, alert_count := 1 } ∧
    (record_alert wMgr9 7200 wIssue).states.lookup "rpool:capacity" =
      some { pool_name := "rpool", issue_category := "capacity", first_seen := 100,
             last_alerted := some 7200, alert_count := 2 } ∧
    (record_alert wMgr9 7200 wIssue).states.lookup "tank:errors" =
      wMgr9.states.lookup "tank:errors" := by
  refine ⟨by decide, ?_, ?_⟩
  · exact (record_alert_frame wMgr9 7200 wIssue
      { pool_name := "rpool", issue_category := "capacity", first_seen := 100,
        last_alerted := some 100, alert_count := 1 } (by decide)).1
  · exact ((record_alert_frame wMgr9 7200 wIssue
      { pool_name := "rpool", issue_category := "capacity", first_seen := 100,
        last_alerted := some 100, alert_count := 1 } (by decide)).2.1 "tank:errors" (by decide))

/-! ## Claim C6: alert suppression and resend -/

/-- C6: with a positive resend interval, immediately after record_alert
runs in a state where should_alert held, should_alert for the same issue
is false; once the resend interval has elapsed since that record_alert it
is true again. -/
theorem should_alert_record_cycle (mgr : StateMgr) (now later : Int) (issue : PoolIssue)
    (hpos : 0 < mgr.resend_interval_hours)
    (hb : should_alert mgr now issue = true) :
    should_alert (record_alert mgr now issue) now issue = false ∧
    (later - now ≥ mgr.resend_interval_hours * 3600 →
      should_alert (record_alert mgr now issue) later issue = true) := by
  have hlook : ∀ t : Int,
      should_alert (record_alert mgr now issue) t issue =
        decide (t - now ≥ mgr.resend_interval_hours * 3600) := by
    intro t
    rw [should_alert, record_alert]
    cases hcur : mgr.states.lookup (make_key issue.pool_name issue.category) with
    | none => simp only [hcur, lookup_setAssoc_self]
    | some st => simp only [hcur, lookup_setAssoc_self]
  constructor
  · rw [hlook now]
    simp only [decide_eq_false_iff_not]
    omega
  · intro hel
    rw [hlook later]
    simpa using hel

/-- C6 witness: a fresh manager alerts, is silent immediately after the
recorded alert, and alerts again 24 hours later. -/
theorem should_alert_record_cycle_witness :
    (0 : Int) < wMgr.resend_interval_hours ∧
    should_alert wMgr 0 wIssue = true ∧
    should_alert (record_alert wMgr 0 wIssue) 0 wIssue = false ∧
    should_alert (record_alert wMgr 0 wIssue) 86400 wIssue = true :=
  ⟨by decide, by decide,
   (should_alert_record_cycle wMgr 0 86400 wIssue (by decide) (by decide)).1,
   (should_alert_record_cycle wMgr 0 86400 wIssue (by decide) (by decide)).2 (by decide)⟩

/-! ## Claim C7: persistence round trip -/

theorem foldl_setAssoc_append {α : Type} (l : List (String × α)) : ∀ acc,
    (l.map Prod.fst).Nodup → (∀ k, k ∈ l.map Prod.fst → acc.lookup k = none) →
    l.foldl (fun a kv => setAssoc a kv.1 kv.2) acc = acc ++ l := by
  induction l with
  | nil => intro acc _ _; simp
  | cons hd tl ih =>
    intro acc hnd hacc
    simp only [List.map_cons, List.nodup_cons] at hnd
    rw [List.foldl_cons]
    have h1 : setAssoc acc hd.1 hd.2 = acc ++ [(hd.1, hd.2)] :=
      setAssoc_of_lookup_none _ _ _ (hacc hd.1 (by simp))
    rw [h1, ih (acc ++ [(hd.1, hd.2)]) hnd.2 ?_]
    · simp
    · intro k hk
      rw [lookup_none_iff]
      simp only [List.map_append, List.mem_append]
      rintro (hka | hkb)
      · have := hacc k (by simp [hk])
        rw [lookup_none_iff] at this
        exact this hka
      · simp only [List.map_cons, List.map_nil, List.mem_cons] at hkb
        rcases hkb with hkb | hkb
        · exact hnd.1 (hkb ▸ hk)
        · cases hkb

/-- C7: saving any alert-state map (keys are unique in a dictionary) and
loading the document back into a fresh manager reconstructs the same
map, entry for entry and in the same order. -/
theorem load_save_roundtrip (states : List (String × AlertState))
    (h : (states.map Prod.fst).Nodup) : load_state (save_state states) = states := by
  have hid : ∀ st : AlertState,
      AlertState.mk st.pool_name st.issue_category st.first_seen
        (match st.last_alerted with | some t => some t | none => none) st.alert_count = st := by
    intro st
    cases st with
    | mk a b c d e => cases d <;> rfl
  rw [load_state, save_state]
  simp only [List.foldl_map]
  rw [if_neg (by norm_num)]
  have hkeys : ((states.map fun kv => (kv.1,
      SerializedAlert.mk kv.2.pool_name kv.2.issue_category kv.2.first_seen
        kv.2.last_alerted kv.2.alert_count)).map Prod.fst) = states.map Prod.fst := by
    simp
  simp only [hid]
  have := foldl_setAssoc_append states [] h (by intro k _; rfl)
  simpa using this

/-- C7 witness: a two-row state survives the round trip. -/
theorem load_save_roundtrip_witness :
    ((wStates.map Prod.fst).Nodup) ∧ load_state (save_state wStates) = wStates :=
  ⟨by decide, load_save_roundtrip wStates (by decide)⟩

/-! ## Claim C8: aggregate severity of check_all_pools -/

theorem sevmax_OK_iff : ∀ a b : Severity, Severity.max a b = .OK ↔ a = .OK ∧ b = .OK := by
  intro a b
  cases a <;> cases b <;> decide

theorem sevmax_OK_left : ∀ s : Severity, Severity.max .OK s = s := by
  intro s
  cases s <;> decide

theorem foldl_sevmax_OK_iff (l : List Severity) : ∀ init : Severity,
    l.foldl Severity.max init = .OK ↔ init = .OK ∧ ∀ s ∈ l, s = .OK := by
  induction l with
  | nil => simp
  | cons hd tl ih =>
    intro init
    rw [List.foldl_cons, ih]
    simp only [sevmax_OK_iff, List.mem_cons]
    constructor
    · rintro ⟨⟨h1, h2⟩, h3⟩
      exact ⟨h1, fun s hs => hs.elim (fun he => he ▸ h2) (h3 s)⟩
    · rintro ⟨h1, h2⟩
      exact ⟨⟨h1, h2 hd (Or.inl rfl)⟩, fun s hs => h2 s (Or.inr hs)⟩

theorem foldl_append_eq_bind {α β : Type} (f : α → List β) (l : List α) : ∀ acc : List β,
    l.foldl (fun acc x => acc ++ f x) acc = acc ++ l.bind f := by
  induction l with
  | nil => intro acc; simp
  | cons hd tl ih =>
    intro acc
    rw [List.foldl_cons, ih]
    simp [List.append_assoc]

theorem checkHealth_sev (pool : PoolStatus) :
    ∀ i ∈ (checkHealth pool).toList, i.severity ≠ .OK := by
  intro i hi
  rw [checkHealth] at hi
  by_cases hh : pool.health.is_healthy
  · rw [if_pos hh] at hi; cases hi
  · rw [if_neg hh] at hi
    simp only [Option.toList_some, List.mem_singleton] at hi
    subst hi
    dsimp
    split <;> simp

theorem checkCapacity_sev (cfg : MonitorConfig) (pool : PoolStatus) :
    ∀ i ∈ (checkCapacity cfg pool).toList, i.severity ≠ .OK := by
  intro i hi
  rw [checkCapacity] at hi
  split at hi
  · simp only [Option.toList_some, List.mem_singleton] at hi
    subst hi; simp
  · split at hi
    · simp only [Option.toList_some, List.mem_singleton] at hi
      subst hi; simp
    · cases hi

theorem checkErrors_sev (cfg : MonitorConfig) (pool : PoolStatus) :
    ∀ i ∈ checkErrors cfg pool, i.severity ≠ .OK := by
  intro i hi
  rw [checkErrors] at hi
  simp only [List.mem_append] at hi
  rcases hi with (hi | hi) | hi <;>
    · split at hi
      · simp only [List.mem_singleton] at hi; subst hi; simp
      · cases hi

theorem checkScrub_sev (cfg : MonitorConfig) (now : Int) (pool : PoolStatus) :
    ∀ i ∈ (checkScrub cfg now pool).toList, i.severity ≠ .OK := by
  intro i hi
  rw [checkScrub] at hi
  split at hi
  · simp only [Option.toList_some, List.mem_singleton] at hi
    subst hi; simp
  · split at hi
    · split at hi
      · simp only [Option.toList_some, List.mem_singleton] at hi
        subst hi; simp
      · dsimp only at hi
        split at hi
        · simp only [Option.toList_some, List.mem_singleton] at hi
          subst hi; simp
        · cases hi
    · cases hi

theorem check_pool_sev (cfg : MonitorConfig) (now : Int) (pool : PoolStatus) :
    ∀ i ∈ check_pool cfg now pool, i.severity ≠ .OK := by
  intro i hi
  rw [check_pool] at hi
  simp only [List.mem_append] at hi
  rcases hi with ((hi | hi) | hi) | hi
  · exact checkHealth_sev pool i hi
  · exact checkCapacity_sev cfg pool i hi
  · exact checkErrors_sev cfg pool i hi
  · exact checkScrub_sev cfg now pool i hi

/-- C8: check_all_pools concatenates the per-pool rules over the pools in
iteration order, its overall severity is OK exactly when there are no
issues, and otherwise the overall severity is the maximum of the issue
severities (the fold of Severity.max from OK over all of them). -/
theorem check_all_pools_severity (cfg : MonitorConfig) (now : Int)
    (pools : List (String × PoolStatus)) :
    (check_all_pools cfg now pools).issues = pools.bind (fun p => check_pool cfg now p.2) ∧
    ((check_all_pools cfg now pools).overall_severity = .OK ↔
      (check_all_pools cfg now pools).issues = []) ∧
    (check_all_pools cfg now pools).overall_severity =
      ((check_all_pools cfg now pools).issues.map PoolIssue.severity).foldl Severity.max .OK := by
  have hissues : (check_all_pools cfg now pools).issues =
      pools.bind (fun p => check_pool cfg now p.2) := by
    rw [check_all_pools]
    simpa using foldl_append_eq_bind (fun p => check_pool cfg now p.2) pools []
  have hfold : (check_all_pools cfg now pools).overall_severity =
      ((check_all_pools cfg now pools).issues.map PoolIssue.severity).foldl Severity.max .OK := by
    rw [check_all_pools]
    dsimp only
    cases hall : pools.foldl (fun acc p => acc ++ check_pool cfg now p.2) [] with
    | nil => rfl
    | cons i rest =>
      rw [List.map_cons, List.foldl_cons, sevmax_OK_left, List.foldl_map]
  refine ⟨hissues, ?_, hfold⟩
  rw [hfold, foldl_sevmax_OK_iff]
  constructor
  · rintro ⟨-, hall⟩
    by_contra hne
    rcases List.exists_mem_of_ne_nil _ hne with ⟨i, hi⟩
    have hiOK : i.severity = .OK := hall i.severity (List.mem_map.mpr ⟨i, hi, rfl⟩)
    rw [hissues] at hi
    rcases List.mem_bind.mp hi with ⟨p, _, hip⟩
    exact check_pool_sev cfg now p.2 i hip hiOK
  · intro hnil
    rw [hnil]
    exact ⟨rfl, by simp⟩

/-! ## Claim C5: the capacity rule of check_pool -/

theorem check_pool_filter_capacity (cfg : MonitorConfig) (now : Int) (pool : PoolStatus) :
    (check_pool cfg now pool).filter (fun i => i.category == "capacity") =
      (checkCapacity cfg pool).toList := by
  rw [check_pool, List.filter_append, List.filter_append, List.filter_append]
  have h1 : (checkHealth pool).toList.filter (fun i => i.category == "capacity") = [] := by
    rw [checkHealth]
    split
    · rfl
    · simp
  have h2 : (checkCapacity cfg pool).toList.filter (fun i => i.category == "capacity") =
      (checkCapacity cfg pool).toList := by
    rw [checkCapacity]
    split
    · simp
    · split
      · simp
      · rfl
  have h3 : (checkErrors cfg pool).filter (fun i => i.category == "capacity") = [] := by
    rw [checkErrors, List.filter_append, List.filter_append]
    split <;> split <;> split <;> simp
  have h4 : (checkScrub cfg now pool).toList.filter (fun i => i.category == "capacity") = [] := by
    rw [checkScrub]
    split
    · simp
    · split
      · split
        · simp
        · dsimp only
          split
          · simp
          · rfl
      · rfl
  rw [h1, h2, h3, h4]
  simp

/-- C5: for a validated configuration the capacity rule emits at most one
capacity issue from check_pool: CRITICAL at or above the critical
threshold, WARNING at or above the warning threshold but below critical,
and nothing below the warning threshold; equality with a threshold
triggers the corresponding severity. -/
theorem check_pool_capacity_rule (cfg : MonitorConfig) (now : Int) (pool : PoolStatus)
    (hvalid : cfg.capacity_warning_percent < cfg.capacity_critical_percent) :
    (pool.capacity_percent ≥ (cfg.capacity_critical_percent : ℚ) →
      ((check_pool cfg now pool).filter (fun i => i.category == "capacity")).map
        PoolIssue.severity = [.CRITICAL]) ∧
    (pool.capacity_percent < (cfg.capacity_critical_percent : ℚ) →
      pool.capacity_percent ≥ (cfg.capacity_warning_percent : ℚ) →
      ((check_pool cfg now pool).filter (fun i => i.category == "capacity")).map
        PoolIssue.severity = [.WARNING]) ∧
    (pool.capacity_percent < (cfg.capacity_warning_percent : ℚ) →
      (check_pool cfg now pool).filter (fun i => i.category == "capacity") = []) := by
  rw [check_pool_filter_capacity]
  refine ⟨?_, ?_, ?_⟩
  · intro hcrit
    rw [checkCapacity, if_pos hcrit]
    simp
  · intro hlt hwarn
    rw [checkCapacity, if_neg (by exact not_le.mpr hlt), if_pos hwarn]
    simp
  · intro hlt
    have hltc : pool.capacity_percent < (cfg.capacity_critical_percent : ℚ) := by
      refine lt_trans hlt ?_
      exact_mod_cast hvalid
    rw [checkCapacity, if_neg (by exact not_le.mpr hltc), if_neg (by exact not_le.mpr hlt)]
    rfl

/-- C5 witness: with the default thresholds a pool at 85 percent yields
exactly one WARNING capacity issue, one at 90 percent yields exactly one
CRITICAL capacity issue, and one at the 80 percent boundary yields
WARNING. -/
theorem check_pool_capacity_rule_witness :
    ((check_pool wMonitor 3600 wPool85).filter (fun i => i.category == "capacity")).map
      PoolIssue.severity = [.WARNING] ∧
    ((check_pool wMonitor 3600 { wPool85 with capacity_percent := 90 }).filter
      (fun i => i.category == "capacity")).map PoolIssue.severity = [.CRITICAL] ∧
    ((check_pool wMonitor 3600 { wPool85 with capacity_percent := 80 }).filter
      (fun i => i.category == "capacity")).map PoolIssue.severity = [.WARNING] :=
  ⟨(check_pool_capacity_rule wMonitor 3600 wPool85 (by decide)).2.1 (by decide) (by decide),
   (check_pool_capacity_rule wMonitor 3600 { wPool85 with capacity_percent := 90 }
     (by decide)).1 (by decide),
   (check_pool_capacity_rule wMonitor 3600 { wPool85 with capacity_percent := 80 }
     (by decide)).2.1 (by decide) (by decide)⟩

/-! ## Claim C1: recovery detection across cycles -/

theorem addIssueCat_keys_nodup (m : List (String × List String)) (pool cat : String)
    (h : (m.map Prod.fst).Nodup) : ((addIssueCat m pool cat).map Prod.fst).Nodup := by
  rw [addIssueCat]
  cases hl : m.lookup pool with
  | none =>
    have hpool := (lookup_none_iff m pool).mp hl
    simp [List.nodup_append, h, hpool]
  | some cats =>
    have hmem : pool ∈ m.map Prod.fst := by
      by_contra hc
      rw [← lookup_none_iff] at hc
      rw [hc] at hl
      cases hl
    dsimp only
    by_cases hc : cat ∈ cats
    · rw [if_pos hc]
      exact h
    · rw [if_neg hc, setAssoc_keys_of_mem m pool _ hmem]
      exact h

theorem buildIssueMap_nodup (issues : List PoolIssue) :
    ((buildIssueMap issues).map Prod.fst).Nodup := by
  have hgen : ∀ (l : List PoolIssue) (m : List (String × List String)),
      (m.map Prod.fst).Nodup →
      ((l.foldl (fun m i => addIssueCat m i.pool_name i.category) m).map Prod.fst).Nodup := by
    intro l
    induction l with
    | nil => intro m hm; exact hm
    | cons hd tl ih =>
      intro m hm
      exact ih _ (addIssueCat_keys_nodup m hd.pool_name hd.category hm)
  exact hgen issues [] (by simp)

theorem detect_recoveries_self (cfg : DaemonConfig) (recoveryOk : String → String → Bool)
    (st : DaemonState) (issues : List PoolIssue)
    (hprev : st.previous_issues = buildIssueMap issues) :
    detect_recoveries cfg recoveryOk st issues = (st, []) := by
  rw [detect_recoveries]
  by_cases hs : cfg.send_recovery_emails
  · rw [if_neg (by simpa using hs)]
    dsimp only
    have hres : ∀ pc ∈ st.previous_issues,
        pc.2.filter (fun c => ¬ c ∈ (((buildIssueMap issues).lookup pc.1).getD [])) = [] := by
      intro pc hpc
      rw [hprev] at hpc
      have hlook : (buildIssueMap issues).lookup pc.1 = some pc.2 :=
        lookup_eq_of_mem_nodup _ pc.1 pc.2 (buildIssueMap_nodup issues) hpc
      rw [hlook]
      simp
    have hfold : ∀ (l : List (String × List String))
        (acc : StateMgr × List (String × String)),
        (∀ pc ∈ l,
          pc.2.filter (fun c => ¬ c ∈ (((buildIssueMap issues).lookup pc.1).getD [])) = []) →
        l.foldl (fun acc pc =>
          (pc.2.filter (fun c => ¬ c ∈ (((buildIssueMap issues).lookup pc.1).getD []))).foldl
            (fun acc2 c =>
              if recoveryOk pc.1 c then
                ((clear_issue acc2.1 pc.1 c).1, acc2.2 ++ [(pc.1, c)])
              else (acc2.1, acc2.2 ++ [(pc.1, c)])) acc) acc = acc := by
      intro l
      induction l with
      | nil => intro acc _; rfl
      | cons hd tl ih =>
        intro acc hall
        rw [List.foldl_cons, hall hd (by simp)]
        exact ih acc (fun pc hpc => hall pc (by simp [hpc]))
    rw [hfold st.previous_issues (st.mgr, []) hres]
  · rw [if_pos (by simpa using hs)]

/-- C1: the orchestrated cycle never makes a recovery delivery attempt:
_handle_check_result replaces previous_issues with the current issue map
before _detect_recoveries runs, so the set difference detection computes
is always empty.  The spec claims exactly one attempt per recovered
pool-category pair. -/
theorem run_check_cycle_no_recovery (cfg : DaemonConfig) (mon : MonitorConfig)
    (alertOk : PoolIssue → Bool) (recoveryOk : String → String → Bool) (now : Int)
    (st : DaemonState) (merged : List (String × PoolStatus)) :
    (run_check_cycle cfg mon alertOk recoveryOk now st merged).2.2 = [] := by
  rw [run_check_cycle]
  dsimp only
  split
  · rfl
  · have hprev : (handle_check_result cfg alertOk now st
        (check_all_pools mon now (filterMonitored cfg merged)).issues
        (filterMonitored cfg merged)).1.previous_issues =
        buildIssueMap (check_all_pools mon now (filterMonitored cfg merged)).issues := by
      rw [handle_check_result]
    rw [detect_recoveries_self cfg recoveryOk _ _ hprev]

/-! ## Claim C4: size strings with a binary suffix -/

theorem digit_facts (c : Char) (hc : c ∈ digitChars) :
    c.isWhitespace = false ∧ c.toUpper = c ∧ isDigitOrDot c = true ∧ c.isDigit = true ∧
    (c == '+') = false ∧ (c == '-') = false ∧ (c == '.') = false := by
  fin_cases hc <;> decide

theorem suffix_facts (c : Char) (hc : c ∈ suffixChars) :
    c.isWhitespace = false ∧ c.toUpper = c ∧ sizeSuffix c = true ∧ isDigitOrDot c = false := by
  fin_cases hc <;> decide

theorem dropWhile_all_false {α : Type} (p : α → Bool) :
    ∀ l : List α, (∀ c ∈ l, p c = false) → l.dropWhile p = l := by
  intro l h
  cases l with
  | nil => rfl
  | cons c r =>
    rw [List.dropWhile_cons, h c (by simp)]
    simp

theorem dropWhile_all_true {α : Type} (p : α → Bool) :
    ∀ l : List α, (∀ c ∈ l, p c = true) → l.dropWhile p = [] := by
  intro l
  induction l with
  | nil => intro _; rfl
  | cons c r ih =>
    intro h
    rw [List.dropWhile_cons, h c (by simp)]
    simp only [if_pos]
    exact ih (fun x hx => h x (by simp [hx]))

theorem takeWhile_all_true {α : Type} (p : α → Bool) :
    ∀ l : List α, (∀ c ∈ l, p c = true) → l.takeWhile p = l := by
  intro l
  induction l with
  | nil => intro _; rfl
  | cons c r ih =>
    intro h
    rw [List.takeWhile_cons, h c (by simp)]
    simp only [if_pos]
    rw [ih (fun x hx => h x (by simp [hx]))]

theorem map_eq_self_of {α : Type} (f : α → α) :
    ∀ l : List α, (∀ c ∈ l, f c = c) → l.map f = l := by
  intro l
  induction l with
  | nil => intro _; rfl
  | cons c r ih =>
    intro h
    rw [List.map_cons, h c (by simp), ih (fun x hx => h x (by simp [hx]))]

theorem pyStrip_eq_self (l : List Char) (h : ∀ c ∈ l, c.isWhitespace = false) :
    pyStrip l = l := by
  rw [pyStrip, dropWhile_all_false _ l h, dropWhile_all_false, List.reverse_reverse]
  intro c hc
  exact h c (List.mem_reverse.mp hc)

theorem stringMk_toList (l : List Char) : (String.mk l).toList = l := rfl

theorem countP_zero_of {α : Type} (p : α → Bool) :
    ∀ l : List α, (∀ c ∈ l, p c = false) → l.countP p = 0 := by
  intro l
  induction l with
  | nil => intro _; rfl
  | cons c r ih =>
    intro h
    rw [List.countP_cons, h c (by simp), ih (fun x hx => h x (by simp [hx]))]
    simp

theorem ratTruncPy_natCast (m : Nat) : ratTruncPy ((m : Nat) : ℚ) = m := by
  rw [ratTruncPy, Rat.num_natCast, Rat.den_natCast]
  simp [Int.tdiv]

/-- C4 amended, exactness part: for a size string made of decimal digits
followed by one binary suffix, with integral value below two to the 53
(exactly representable in the binary64 arithmetic the parser uses), the
parser returns exactly the value times 1024 to the k, with k in 1..5
matching K, M, G, T, P.  For fractional or larger numeric parts the
result is instead the truncation of the binary64 product, as the
counterexample shows. -/
theorem parse_size_integral (ds : List Char) (suf : Char)
    (hne : ds ≠ []) (hds : ∀ c ∈ ds, c ∈ digitChars) (hsuf : suf ∈ suffixChars)
    (hval : digitsVal ds < 2 ^ 53) :
    parse_size_to_bytes (String.mk (ds ++ [suf])) =
      .ok ((digitsVal ds : Int) * 1024 ^ suffixExp suf) := by
  obtain ⟨d, ds2, rfl⟩ : ∃ d ds2, ds = d :: ds2 := by
    cases ds with
    | nil => exact absurd rfl hne
    | cons d ds2 => exact ⟨d, ds2, rfl⟩
  have hsw := (suffix_facts suf hsuf).1
  have hnows : ∀ c ∈ (d :: ds2) ++ [suf], c.isWhitespace = false := by
    intro c hc
    rcases List.mem_append.mp hc with hc | hc
    · exact (digit_facts c (hds c hc)).1
    · simp only [List.mem_singleton] at hc
      exact hc ▸ hsw
  have hstrip : pyStrip ((d :: ds2) ++ [suf]) = (d :: ds2) ++ [suf] :=
    pyStrip_eq_self _ hnows
  have hbody : isPyFloatBody ((d :: ds2) ++ [suf]) = false := by
    have hall : ((d :: ds2) ++ [suf]).all isDigitOrDot = false := by
      rw [List.all_append]
      have hsufd : ([suf].all isDigitOrDot) = false := by
        simp [(suffix_facts suf hsuf).2.2.2]
      simp [hsufd]
    rw [isPyFloatBody, hall]
    rfl
  have hfloat : pyFloatQ (String.mk ((d :: ds2) ++ [suf])) = none := by
    rw [pyFloatQ, stringMk_toList, hstrip]
    simp only [List.cons_append]
    rw [if_neg (by simp [(digit_facts d (hds d (by simp))).2.2.2.2.1]),
      if_neg (by simp [(digit_facts d (hds d (by simp))).2.2.2.2.2.1])]
    rw [show (d :: (ds2 ++ [suf])) = (d :: ds2) ++ [suf] from rfl, hbody]
    rfl
  have hupper : ((d :: ds2) ++ [suf]).map Char.toUpper = (d :: ds2) ++ [suf] := by
    apply map_eq_self_of
    intro c hc
    rcases List.mem_append.mp hc with hc | hc
    · exact (digit_facts c (hds c hc)).2.1
    · simp only [List.mem_singleton] at hc
      exact hc ▸ (suffix_facts suf hsuf).2.1
  have hdigits : ∀ c ∈ (d :: ds2), isDigitOrDot c = true := by
    intro c hc
    exact (digit_facts c (hds c hc)).2.2.1
  have hmatch : sizeMatch (((pyStrip (String.mk ((d :: ds2) ++ [suf])).toList).map
      Char.toUpper)) = some ((d :: ds2), suf) := by
    rw [stringMk_toList, hstrip, hupper, sizeMatch]
    have hrev : ((d :: ds2) ++ [suf]).reverse = suf :: (ds2.reverse ++ [d]) := by simp
    rw [hrev]
    dsimp only
    rw [if_pos (by simp [(suffix_facts suf hsuf).2.2.1])]
    have hdw : (ds2.reverse ++ [d]).dropWhile Char.isWhitespace = ds2.reverse ++ [d] := by
      apply dropWhile_all_false
      intro c hc
      have hmemd : c ∈ d :: ds2 := by
        rcases List.mem_append.mp hc with hc | hc
        · exact List.mem_cons_of_mem d (List.mem_reverse.mp hc)
        · simp only [List.mem_singleton] at hc
          exact hc ▸ List.mem_cons_self d ds2
      exact (digit_facts c (hds c hmemd)).1
    rw [hdw]
    have hrr : (ds2.reverse ++ [d]).reverse = d :: ds2 := by simp
    rw [hrr, if_pos]
    have hie : ((d :: ds2).isEmpty) = false := rfl
    simp only [hie, Bool.not_false, Bool.true_and, List.all_eq_true]
    exact hdigits
  have hbody2 : isPyFloatBody (d :: ds2) = true := by
    rw [isPyFloatBody]
    have h1 : (d :: ds2).all isDigitOrDot = true := by
      simp only [List.all_eq_true]
      exact hdigits
    have h2 : (d :: ds2).countP (fun c => c == '.') = 0 :=
      countP_zero_of _ _ (fun c hc => (digit_facts c (hds c hc)).2.2.2.2.2.2)
    have h3 : (d :: ds2).any (fun c => c.isDigit) = true := by
      simp only [List.any_eq_true]
      exact ⟨d, by simp, (digit_facts d (hds d (by simp))).2.2.2.1⟩
    rw [h1, h3, h2]
    rfl
  have hdec : decimalVal (d :: ds2) = ((digitsVal (d :: ds2) : Nat) : ℚ) := by
    rw [decimalVal]
    have ht : (d :: ds2).takeWhile (fun c => !(c == '.')) = d :: ds2 :=
      takeWhile_all_true _ _ (fun c hc => by
        simp [(digit_facts c (hds c hc)).2.2.2.2.2.2])
    have hd2 : (d :: ds2).dropWhile (fun c => !(c == '.')) = [] :=
      dropWhile_all_true _ _ (fun c hc => by
        simp [(digit_facts c (hds c hc)).2.2.2.2.2.2])
    rw [ht, hd2]
  have hmult : sizeMultiplier suf = ((1024 ^ suffixExp suf : Nat) : ℚ) := by
    fin_cases hsuf <;> norm_num [sizeMultiplier, suffixExp]
  rw [parse_size_to_bytes, hfloat, hmatch]
  dsimp only
  rw [if_pos hbody2, hdec, hmult]
  rcases Nat.eq_zero_or_pos (digitsVal (d :: ds2)) with hz | hpos
  · rw [hz]
    have : qMul ((0 : Nat) : ℚ) ((1024 ^ suffixExp suf : Nat) : ℚ) = (((0 : Nat) : Nat) : ℚ) := by
      rw [qMul_eq]
      push_cast
      ring
    rw [show fl (((0 : Nat) : Nat) : ℚ) = (((0 : Nat) : Nat) : ℚ) by
      rw [Nat.cast_zero]; exact fl_zero]
    rw [this, ratTruncPy_natCast]
    simp
  · rw [fl_natCast _ hpos hval]
    have : qMul ((digitsVal (d :: ds2) : Nat) : ℚ) ((1024 ^ suffixExp suf : Nat) : ℚ) =
        (((digitsVal (d :: ds2) * 1024 ^ suffixExp suf : Nat) : Nat) : ℚ) := by
      rw [qMul_eq]
      push_cast
      ring
    rw [this, ratTruncPy_natCast]
    push_cast
    ring_nf

set_option maxRecDepth 100000 in
/-- C4 counterexample: the source parses 0.1K to 102 (truncation of the
binary64 product), which is not the exact numeric value 0.1 times 1024
(that value, 102.4, is not an integer), refuting exactness for
fractional numeric parts. -/
theorem parse_size_fractional_cex :
    parse_size_to_bytes "0.1K" = .ok 102 ∧
    decimalVal ['0', '.', '1'] = Rat.divInt 1 10 ∧
    (parse_size_to_bytes "0.1K").map (fun z => ((z : Int) : ℚ)) ≠
      .ok (qMul (decimalVal ['0', '.', '1']) 1024) := by
  refine ⟨by decide, by decide, by decide⟩

/-- C4 witness for the amended theorem: the digit string 500 with suffix
G parses to exactly 500 times 1024 cubed. -/
theorem parse_size_integral_witness :
    digitsVal ['5', '0', '0'] = 500 ∧
    parse_size_to_bytes (String.mk (['5', '0', '0'] ++ ['G'])) =
      .ok ((digitsVal ['5', '0', '0'] : Int) * 1024 ^ suffixExp 'G') :=
  ⟨by decide,
   parse_size_integral ['5', '0', '0'] 'G' (by decide) (by decide) (by decide) (by decide)⟩

/-! ## Claim C3: non-numeric property strings in parse_pool_list -/

theorem parse_fold_lookup_notmem (kvs : List (String × Json)) (name : String)
    (h : name ∉ kvs.map Prod.fst) : ∀ acc : List (String × PoolStatus),
    (kvs.foldl (fun acc np => match parsePoolFromList np.1 np.2 with
      | .ok ps => setAssoc acc np.1 ps | .error _ => acc) acc).lookup name =
      acc.lookup name := by
  induction kvs with
  | nil => intro acc; rfl
  | cons hd tl ih =>
    intro acc
    simp only [List.map_cons, List.mem_cons] at h
    push_neg at h
    rw [List.foldl_cons]
    rw [ih (by simpa using h.2)]
    cases hp : parsePoolFromList hd.1 hd.2 with
    | ok ps =>
      dsimp only
      exact lookup_setAssoc_ne acc hd.1 name ps h.1
    | error e => rfl

theorem parse_fold_lookup_mem (kvs : List (String × Json)) (name : String) (pdata : Json)
    (hnd : (kvs.map Prod.fst).Nodup) (hmem : (name, pdata) ∈ kvs) :
    ∀ acc : List (String × PoolStatus), acc.lookup name = none →
    (kvs.foldl (fun acc np => match parsePoolFromList np.1 np.2 with
      | .ok ps => setAssoc acc np.1 ps | .error _ => acc) acc).lookup name =
      (parsePoolFromList name pdata).toOption := by
  induction kvs with
  | nil => cases hmem
  | cons hd tl ih =>
    intro acc hacc
    simp only [List.map_cons, List.nodup_cons] at hnd
    rcases List.mem_cons.mp hmem with heq | htl
    · have hhd : hd = (name, pdata) := heq.symm
      subst hhd
      rw [List.foldl_cons]
      have hnot : name ∉ tl.map Prod.fst := hnd.1
      rw [parse_fold_lookup_notmem tl name hnot]
      cases hp : parsePoolFromList name pdata with
      | ok ps =>
        dsimp only
        simp [lookup_setAssoc_self acc name ps, Except.toOption]
      | error e =>
        dsimp only
        rw [hacc]
        simp [Except.toOption]
    · have hname : name ∈ tl.map Prod.fst :=
        List.mem_map.mpr ⟨(name, pdata), htl, rfl⟩
      have hne : hd.1 ≠ name := fun hc => hnd.1 (hc ▸ hname)
      rw [List.foldl_cons]
      apply ih hnd.2 htl
      cases hp : parsePoolFromList hd.1 hd.2 with
      | ok ps =>
        dsimp only
        rw [lookup_setAssoc_ne acc hd.1 name ps (Ne.symm hne)]
        exact hacc
      | error e => exact hacc

theorem extractCapacityMetrics_ok_cap (props : List (String × Json)) (m : CapacityMetrics)
    (h : extractCapacityMetrics props = .ok m) :
    m.capacity_percent =
      (pyFloatQ (rstripPctStr (getPropertyValue props "capacity" "0"))).getD 0 := by
  rw [extractCapacityMetrics] at h
  cases h1 : parse_size_to_bytes (getPropertyValue props "size" "0") with
  | error e =>
    rw [h1] at h
    simp only [bind, Except.bind] at h
    cases h
  | ok v1 =>
    rw [h1] at h
    cases h2 : parse_size_to_bytes (getPropertyValue props "allocated" "0") with
    | error e =>
      rw [h2] at h
      simp only [bind, Except.bind] at h
      cases h
    | ok v2 =>
      rw [h2] at h
      cases h3 : parse_size_to_bytes (getPropertyValue props "free" "0") with
      | error e =>
        rw [h3] at h
        simp only [bind, Except.bind] at h
        cases h
      | ok v3 =>
        rw [h3] at h
        simp only [bind, Except.bind, pure, Except.pure] at h
        cases h
        rfl

theorem parsePoolFromList_props_cap (name : String) (props : List (String × Json))
    (p : PoolStatus)
    (h : parsePoolFromList name (Json.obj [("properties", Json.obj props)]) = .ok p) :
    ∃ m, extractCapacityMetrics props = .ok m ∧ p.capacity_percent = m.capacity_percent := by
  rw [parsePoolFromList] at h
  have hlk : (([("properties", Json.obj props)] : List (String × Json)).lookup
      "properties") = some (Json.obj props) := rfl
  rw [hlk] at h
  simp only [Option.getD_some] at h
  cases hm : extractCapacityMetrics props with
  | error e =>
    rw [hm] at h
    simp only [bind, Except.bind] at h
    cases h
  | ok m =>
    rw [hm] at h
    simp only [bind, Except.bind, pure, Except.pure] at h
    cases h
    exact ⟨m, rfl, rfl⟩

/-- C3 amended: in parse_pool_list an unparseable capacity string falls
back to a zero capacity with the pool kept, but an unparseable size,
allocated or free string makes that single pool fail to parse and the
pool is dropped from the result; sibling pools are unaffected and the
parse as a whole still succeeds. -/
theorem parse_pool_list_per_pool (kvs : List (String × Json)) (name : String) (pdata : Json)
    (hnd : (kvs.map Prod.fst).Nodup) (hmem : (name, pdata) ∈ kvs) :
    (∀ e, parsePoolFromList name pdata = .error e →
      ∃ m, parse_pool_list [("pools", Json.obj kvs)] = .ok m ∧ m.lookup name = none) ∧
    (∀ p, parsePoolFromList name pdata = .ok p →
      ∃ m, parse_pool_list [("pools", Json.obj kvs)] = .ok m ∧ m.lookup name = some p) ∧
    (∀ props p, pdata = Json.obj [("properties", Json.obj props)] →
      pyFloatQ (rstripPctStr (getPropertyValue props "capacity" "0")) = none →
      parsePoolFromList name pdata = .ok p → p.capacity_percent = 0) := by
  have hkvs : kvs ≠ [] := by
    intro hc
    rw [hc] at hmem
    cases hmem
  have hexp : parse_pool_list [("pools", Json.obj kvs)] =
      .ok (kvs.foldl (fun acc np => match parsePoolFromList np.1 np.2 with
        | .ok ps => setAssoc acc np.1 ps | .error _ => acc) []) := by
    rw [parse_pool_list]
    have hlk : (([("pools", Json.obj kvs)] : List (String × Json)).lookup "pools") =
        some (Json.obj kvs) := rfl
    rw [hlk]
    simp only [Option.getD_some]
    have hfal : jsonFalsy (Json.obj kvs) = false := by
      rw [jsonFalsy]
      cases kvs with
      | nil => exact absurd rfl hkvs
      | cons a b => rfl
    rw [hfal]
    simp
  refine ⟨?_, ?_, ?_⟩
  · intro e he
    refine ⟨_, hexp, ?_⟩
    rw [parse_fold_lookup_mem kvs name pdata hnd hmem [] rfl, he]
    rfl
  · intro p hp
    refine ⟨_, hexp, ?_⟩
    rw [parse_fold_lookup_mem kvs name pdata hnd hmem [] rfl, hp]
    rfl
  · rintro props p rfl hcap hp
    obtain ⟨m, hm, hpm⟩ := parsePoolFromList_props_cap name props p hp
    rw [hpm, extractCapacityMetrics_ok_cap props m hm, hcap]
    rfl

set_option maxRecDepth 100000 in
/-- C3 counterexample: a pool whose size property is the non-numeric
string garbage is dropped from the parse result entirely (the result is
the empty map), not kept with size zero as the claim states. -/
theorem parse_pool_list_drops_pool :
    (parse_size_to_bytes "garbage").isOk = false ∧
    parse_pool_list c3CexPayload = .ok [] := by
  refine ⟨by decide, by decide⟩

set_option maxRecDepth 100000 in
/-- C3 witness: in a two-pool payload the pool with the junk size string
vanishes from the result while its sibling with the junk capacity string
is kept with capacity zero. -/
theorem parse_pool_list_per_pool_witness :
    (∃ m, parse_pool_list [("pools", Json.obj wMixedPools)] = .ok m ∧
      m.lookup "bad" = none) ∧
    (∃ m, parse_pool_list [("pools", Json.obj wMixedPools)] = .ok m ∧
      m.lookup "good" = some wGoodParsed ∧ wGoodParsed.capacity_percent = 0) := by
  constructor
  · exact (parse_pool_list_per_pool wMixedPools "bad"
      (Json.obj [("properties", Json.obj wBadProps)]) (by decide)
      (by rw [wMixedPools]; exact List.mem_cons_self _ _)).1
      "Cannot parse size string - expected number or number+suffix (K/M/G/T/P)" (by decide)
  · obtain ⟨m, hm1, hm2⟩ := (parse_pool_list_per_pool wMixedPools "good"
      (Json.obj [("properties", Json.obj wGoodProps)]) (by decide)
      (by rw [wMixedPools]; exact List.mem_cons_of_mem _ (List.mem_cons_self _ _))).2.1
      wGoodParsed (by decide)
    exact ⟨m, hm1, hm2, by decide⟩
